import Mathlib

/-!
Verification development for the countdown-event service (`src/app.py`).

Python strings are modelled as `List Char` (a Python `str` is a sequence of
code points).  The cryptographically random stream produced by repeated calls
to `secrets.choice(ALPHABET)` is modelled as an arbitrary function
`src : Nat → Fin 36` together with a position counter: the call that consumes
the `i`-th random draw receives `src i`.
-/

/-- Coerce a Lean string literal to the `List Char` model of Python strings. -/
def pstr (s : String) : List Char := s.data

/-- The slug alphabet `string.ascii_lowercase + string.digits` (36 symbols). -/
def ALPHABET : List Char := pstr ("abcdefghijklmnopqrstuvwxyz0123456789")

theorem ALPHABET_length : ALPHABET.length = 36 := rfl

/-- Model of `gen_slug(n)` (src/app.py line 59): joins `n` independent draws
`secrets.choice(ALPHABET)`; the draws are `src pos, src (pos+1), …`. -/
def gen_slug (src : Nat → Fin 36) (pos n : Nat) : List Char :=
  (List.range n).map (fun i => ALPHABET.get (Fin.cast ALPHABET_length.symm (src (pos + i))))

/-- Model of the `for _ in range(10)` loop of `ensure_unique_slug`
(src/app.py lines 64-68): `k` attempts remain; each attempt generates a
candidate of length `n` (consuming `n` draws) and returns it unless it is
already present in `store` (the set of slugs the session sees). -/
def tryLoop (store : List (List Char)) (src : Nat → Fin 36) (pos n : Nat) : Nat → Option (List Char)
  | 0 => none
  | k + 1 =>
    let s := gen_slug src pos n
    if s ∈ store then tryLoop store src (pos + n) n k else some s

/-- Model of `ensure_unique_slug(session, n)` (src/app.py lines 62-70): ten
attempts at length `n`; if all collide, recurse at length `n+1`.  The Python
recursion is unbounded, so the call depth is made explicit as `fuel`
(`none` models exhausting the call stack, which never happens for adequate
fuel — see `ensure_unique_slug_total`). -/
def ensure_unique_slug (store : List (List Char)) (src : Nat → Fin 36) :
    Nat → Nat → Nat → Option (List Char)
  | 0, _, _ => none
  | fuel + 1, pos, n =>
    match tryLoop store src pos n 10 with
    | some s => some s
    | none => ensure_unique_slug store src fuel (pos + 10 * n) (n + 1)

-- ------------------------- gen_slug lemmas -------------------------

theorem gen_slug_length (src : Nat → Fin 36) (pos n : Nat) :
    (gen_slug src pos n).length = n := by
  simp [gen_slug]

theorem gen_slug_mem_alphabet (src : Nat → Fin 36) (pos n : Nat) :
    ∀ c ∈ gen_slug src pos n, c ∈ ALPHABET := by
  intro c hc
  simp only [gen_slug, List.mem_map] at hc
  obtain ⟨i, _, rfl⟩ := hc
  exact List.get_mem _ _ _

theorem gen_slug_zero (src : Nat → Fin 36) (pos : Nat) : gen_slug src pos 0 = [] := rfl

-- ------------------------- tryLoop lemmas -------------------------

theorem tryLoop_succ (store : List (List Char)) (src : Nat → Fin 36) (pos n k : Nat) :
    tryLoop store src pos n (k + 1) =
      if gen_slug src pos n ∈ store then tryLoop store src (pos + n) n k
      else some (gen_slug src pos n) := rfl

theorem tryLoop_some_not_mem (store : List (List Char)) (src : Nat → Fin 36) (n : Nat) :
    ∀ k pos s, tryLoop store src pos n k = some s → s ∉ store := by
  intro k
  induction k with
  | zero => intro pos s h; simp [tryLoop] at h
  | succ k ih =>
    intro pos s h
    rw [tryLoop_succ] at h
    by_cases hmem : gen_slug src pos n ∈ store
    · rw [if_pos hmem] at h
      exact ih _ _ h
    · rw [if_neg hmem] at h
      cases h
      exact hmem

theorem tryLoop_first (store : List (List Char)) (src : Nat → Fin 36) (n : Nat) :
    ∀ k pos s, tryLoop store src pos n k = some s →
      ∃ i < k, s = gen_slug src (pos + i * n) n ∧ s ∉ store ∧
        ∀ j < i, gen_slug src (pos + j * n) n ∈ store := by
  intro k
  induction k with
  | zero => intro pos s h; simp [tryLoop] at h
  | succ k ih =>
    intro pos s h
    rw [tryLoop_succ] at h
    by_cases hmem : gen_slug src pos n ∈ store
    · rw [if_pos hmem] at h
      obtain ⟨i, hik, hs, hns, hall⟩ := ih _ _ h
      refine ⟨i + 1, by omega, ?_, hns, ?_⟩
      · rw [hs]; congr 1; ring
      · intro j hj
        match j with
        | 0 => simpa using hmem
        | j + 1 =>
          have := hall j (by omega)
          have harith : pos + n + j * n = pos + (j + 1) * n := by ring
          rwa [harith] at this
    · rw [if_neg hmem] at h
      cases h
      exact ⟨0, by omega, by simp, hmem, by omega⟩

theorem tryLoop_none_head (store : List (List Char)) (src : Nat → Fin 36) (pos n k : Nat)
    (h : tryLoop store src pos n (k + 1) = none) : gen_slug src pos n ∈ store := by
  rw [tryLoop_succ] at h
  by_cases hmem : gen_slug src pos n ∈ store
  · exact hmem
  · rw [if_neg hmem] at h; cases h

-- ------------------------- ensure_unique_slug lemmas -------------------------

theorem ensure_unique_slug_succ (store : List (List Char)) (src : Nat → Fin 36)
    (fuel pos n : Nat) :
    ensure_unique_slug store src (fuel + 1) pos n =
      match tryLoop store src pos n 10 with
      | some s => some s
      | none => ensure_unique_slug store src fuel (pos + 10 * n) (n + 1) := rfl

theorem ensure_unique_slug_not_mem (store : List (List Char)) (src : Nat → Fin 36) :
    ∀ fuel pos n s, ensure_unique_slug store src fuel pos n = some s → s ∉ store := by
  intro fuel
  induction fuel with
  | zero => intro pos n s h; simp [ensure_unique_slug] at h
  | succ fuel ih =>
    intro pos n s h
    rw [ensure_unique_slug_succ] at h
    cases htl : tryLoop store src pos n 10 with
    | some t =>
      rw [htl] at h
      cases h
      exact tryLoop_some_not_mem store src n 10 pos s htl
    | none =>
      rw [htl] at h
      exact ih _ _ _ h

theorem ensure_unique_slug_total (store : List (List Char)) (src : Nat → Fin 36) :
    ∀ fuel pos n, 1 ≤ fuel → (∀ t ∈ store, t.length + 2 ≤ n + fuel) →
      ∃ s, ensure_unique_slug store src fuel pos n = some s ∧ s ∉ store := by
  intro fuel
  induction fuel with
  | zero => intro pos n h; omega
  | succ fuel ih =>
    intro pos n _ hlen
    rw [ensure_unique_slug_succ]
    cases htl : tryLoop store src pos n 10 with
    | some t =>
      exact ⟨t, rfl, tryLoop_some_not_mem store src n 10 pos t htl⟩
    | none =>
      have hhead : gen_slug src pos n ∈ store := by
        have : (10 : Nat) = 9 + 1 := rfl
        rw [this] at htl
        exact tryLoop_none_head store src pos n 9 htl
      match fuel with
      | 0 =>
        exfalso
        have := hlen _ hhead
        rw [gen_slug_length] at this
        omega
      | fuel + 1 =>
        obtain ⟨s, hs, hns⟩ := ih (pos + 10 * n) (n + 1) (by omega)
          (fun t ht => by have := hlen t ht; omega)
        exact ⟨s, hs, hns⟩

-- ------------------------- datetime model -------------------------

/-- Model of a Python `datetime.datetime`: proleptic-Gregorian calendar
fields plus an optional fixed UTC offset in minutes (`none` = naive,
`some o` = `tzinfo = timezone(timedelta(minutes=o))`). -/
structure PyDateTime where
  year : Nat
  month : Nat
  day : Nat
  hour : Nat
  minute : Nat
  second : Nat
  microsecond : Nat
  tzoffset : Option Int
deriving DecidableEq, Repr

/-- Gregorian leap-year rule, as in Python's `calendar.isleap`. -/
def isLeap (y : Nat) : Bool := y % 4 = 0 && (y % 100 != 0 || y % 400 = 0)

/-- Length of month `m` of year `y` (months are 1-based). -/
def daysInMonth (y m : Nat) : Nat :=
  if m = 2 then (if isLeap y then 29 else 28)
  else if m = 4 ∨ m = 6 ∨ m = 9 ∨ m = 11 then 30
  else 31

/-- Days before month `m` in a non-leap year. -/
def monthOffset (m : Nat) : Nat :=
  match m with
  | 1 => 0
  | 2 => 31
  | 3 => 59
  | 4 => 90
  | 5 => 120
  | 6 => 151
  | 7 => 181
  | 8 => 212
  | 9 => 243
  | 10 => 273
  | 11 => 304
  | 12 => 334
  | _ => 0

/-- Days before month `m` in year `y`. -/
def daysBeforeMonth (y m : Nat) : Nat :=
  monthOffset m + (if 3 ≤ m ∧ isLeap y then 1 else 0)

/-- Proleptic-Gregorian ordinal of a date, as Python's `date.toordinal`
(0001-01-01 is day 1). -/
def toOrdinal (y m d : Nat) : Nat :=
  365 * (y - 1) + (y - 1) / 4 - (y - 1) / 100 + (y - 1) / 400 + daysBeforeMonth y m + d

/-- The instant denoted by a datetime, in microseconds from the epoch
0001-01-01T00:00:00 UTC; a naive datetime is read as UTC.  Two datetimes
denote the same point in time exactly when their `utcTicks` agree. -/
def utcTicks (dt : PyDateTime) : Int :=
  (((toOrdinal dt.year dt.month dt.day : Int) * 1440 + dt.hour * 60 + dt.minute
      - dt.tzoffset.getD 0) * 60 + dt.second) * 1000000 + dt.microsecond

-- ------------------------- fromisoformat parser -------------------------

/-- Decimal digit test. -/
def isDig (c : Char) : Bool := decide ('0' ≤ c ∧ c ≤ '9')

/-- Value of a decimal digit character. -/
def digVal (c : Char) : Nat := c.toNat - 48

/-- Read exactly two decimal digits. -/
def parse2 : List Char → Option (Nat × List Char)
  | a :: b :: rest =>
    if isDig a && isDig b then some (digVal a * 10 + digVal b, rest) else none
  | _ => none

/-- Read exactly four decimal digits. -/
def parse4 : List Char → Option (Nat × List Char)
  | a :: b :: c :: d :: rest =>
    if isDig a && isDig b && isDig c && isDig d then
      some (((digVal a * 10 + digVal b) * 10 + digVal c) * 10 + digVal d, rest)
    else none
  | _ => none

/-- Consume the single expected character `c`. -/
def expectCh (c : Char) : List Char → Option (List Char)
  | x :: rest => if x = c then some rest else none
  | _ => none

/-- Split off the leading run of decimal digits (as digit values). -/
def digitRun : List Char → List Nat × List Char
  | [] => ([], [])
  | c :: rest =>
    if isDig c then
      let p := digitRun rest
      (digVal c :: p.1, p.2)
    else ([], c :: rest)

/-- Microseconds denoted by a fractional-second digit run: the first six
digits, right-padded with zeros (further digits are ignored), as in
CPython's parser. -/
def usFromDigits (ds : List Nat) : Nat :=
  ((ds.take 6).foldl (fun a d => a * 10 + d) 0) * 10 ^ (6 - ds.length)

/-- Fractional part after the decimal point: one or more digits. -/
def parseFrac (l : List Char) : Option (Nat × List Char) :=
  match digitRun l with
  | ([], _) => none
  | (ds, r) => some (usFromDigits ds, r)

/-- Time-of-day part `HH[:MM[:SS[.fff…]]]` of an ISO string, returning
`(hour, minute, second, microsecond, rest)`. -/
def parseTimePart (l : List Char) : Option (Nat × Nat × Nat × Nat × List Char) :=
  match parse2 l with
  | none => none
  | some (h, r) =>
    match r with
    | ':' :: r1 =>
      match parse2 r1 with
      | none => none
      | some (mi, r2) =>
        match r2 with
        | ':' :: r3 =>
          match parse2 r3 with
          | none => none
          | some (se, r4) =>
            match r4 with
            | '.' :: r5 =>
              match parseFrac r5 with
              | none => none
              | some (us, r6) => some (h, mi, se, us, r6)
            | _ => some (h, mi, se, 0, r4)
        | _ => some (h, mi, 0, 0, r2)
    | _ => some (h, 0, 0, 0, r)

/-- Optional trailing UTC offset `±HH:MM` (empty input means a naive
datetime); anything else is a parse error. -/
def parseOffsetEnd : List Char → Option (Option Int)
  | [] => some none
  | c :: rest =>
    if c = '+' || c = '-' then
      match parse2 rest with
      | none => none
      | some (oh, r1) =>
        match expectCh ':' r1 with
        | none => none
        | some r2 =>
          match parse2 r2 with
          | none => none
          | some (om, r3) =>
            match r3 with
            | [] =>
              some (some (if c = '+' then (oh * 60 + om : Int) else -(oh * 60 + om : Int)))
            | _ => none
    else none

/-- Range checks performed by the `datetime`/`timezone` constructors:
year 1–9999, month 1–12, day within the month, time fields in range,
offset strictly between -24h and +24h. -/
def validDT (dt : PyDateTime) : Bool :=
  decide (1 ≤ dt.year) && decide (dt.year ≤ 9999) &&
  decide (1 ≤ dt.month) && decide (dt.month ≤ 12) &&
  decide (1 ≤ dt.day) && decide (dt.day ≤ daysInMonth dt.year dt.month) &&
  decide (dt.hour ≤ 23) && decide (dt.minute ≤ 59) && decide (dt.second ≤ 59) &&
  decide (dt.microsecond ≤ 999999) &&
  (match dt.tzoffset with
   | none => true
   | some o => decide (-1440 < o ∧ o < 1440))

/-- Model of `datetime.fromisoformat` on the formats this service meets:
`YYYY-MM-DD`, optionally followed by a separator (any single character, as
CPython documents) and `HH[:MM[:SS[.fff…]]]`, optionally followed by a UTC
offset `±HH:MM`; out-of-range field values are rejected.  (CPython also
accepts some further ISO-8601 shapes — basic format, week dates, offsets
with seconds — which this service never produces or relies on.) -/
def fromisoformat (s : List Char) : Option PyDateTime :=
  match parse4 s with
  | none => none
  | some (y, r1) =>
    match expectCh '-' r1 with
    | none => none
    | some r2 =>
      match parse2 r2 with
      | none => none
      | some (mo, r3) =>
        match expectCh '-' r3 with
        | none => none
        | some r4 =>
          match parse2 r4 with
          | none => none
          | some (d, r5) =>
            match r5 with
            | [] =>
              let dt : PyDateTime := ⟨y, mo, d, 0, 0, 0, 0, none⟩
              if validDT dt then some dt else none
            | _sep :: tr =>
              match parseTimePart tr with
              | none => none
              | some (h, mi, se, us, r6) =>
                match parseOffsetEnd r6 with
                | none => none
                | some off =>
                  let dt : PyDateTime := ⟨y, mo, d, h, mi, se, us, off⟩
                  if validDT dt then some dt else none

-- ------------------------- parse_iso_utc -------------------------

/-- Failure modes of `parse_iso_utc`: `ValueError` from `fromisoformat`
(the "invalid time format" of the spec), or `OverflowError` from
`astimezone` when the converted instant leaves the representable years
1–9999. -/
inductive ParseErr
  | invalidFormat
  | overflow
deriving DecidableEq, Repr

/-- Lines 77-79 of src/app.py: a naive parse result is assumed to already
be UTC (`dt.replace(tzinfo=timezone.utc)`); aware results are untouched. -/
def assumeUTC (dt : PyDateTime) : PyDateTime :=
  match dt.tzoffset with
  | none => { dt with tzoffset := some 0 }
  | some _ => dt

/-- Calendar predecessor of a (valid, non-minimal) date. -/
def prevDay (y m d : Nat) : Nat × Nat × Nat :=
  if 2 ≤ d then (y, m, d - 1)
  else if 2 ≤ m then (y, m - 1, daysInMonth y (m - 1))
  else (y - 1, 12, 31)

/-- Calendar successor of a (valid, non-maximal) date. -/
def nextDay (y m d : Nat) : Nat × Nat × Nat :=
  if d + 1 ≤ daysInMonth y m then (y, m, d + 1)
  else if m + 1 ≤ 12 then (y, m + 1, 1)
  else (y + 1, 1, 1)

/-- Model of `dt.astimezone(timezone.utc)` on an aware datetime: subtract
the offset (a whole number of minutes with `|o| < 1440`, so the date moves
by at most one day) and attach the UTC timezone; `none` models the
`OverflowError` CPython raises when the result would leave years 1–9999.
A naive receiver never occurs in `parse_iso_utc` (it is made aware first);
CPython would interpret it in the process-local timezone, which this
service never relies on, so that case is mapped to `none`. -/
def astimezoneUTC (dt : PyDateTime) : Option PyDateTime :=
  match dt.tzoffset with
  | none => none
  | some o =>
    let t : Int := (dt.hour : Int) * 60 + dt.minute - o
    if 0 ≤ t ∧ t < 1440 then
      some { dt with hour := t.toNat / 60, minute := t.toNat % 60, tzoffset := some 0 }
    else if t < 0 then
      if dt.year = 1 ∧ dt.month = 1 ∧ dt.day = 1 then none
      else
        let p := prevDay dt.year dt.month dt.day
        let t2 := (t + 1440).toNat
        some ⟨p.1, p.2.1, p.2.2, t2 / 60, t2 % 60, dt.second, dt.microsecond, some 0⟩
    else
      if dt.year = 9999 ∧ dt.month = 12 ∧ dt.day = 31 then none
      else
        let p := nextDay dt.year dt.month dt.day
        let t2 := (t - 1440).toNat
        some ⟨p.1, p.2.1, p.2.2, t2 / 60, t2 % 60, dt.second, dt.microsecond, some 0⟩

/-- Whether `p` is an initial segment of `l`. -/
def leadsWith : List Char → List Char → Bool
  | [], _ => true
  | _ :: _, [] => false
  | p :: ps, c :: cs => p = c && leadsWith ps cs

/-- Worker for `pyReplace`, structurally recursive on explicit fuel
(`fuel ≥ length of the scanned list` always holds at the call site). -/
def replaceAllF (pat rep : List Char) : Nat → List Char → List Char
  | _, [] => []
  | 0, s => s
  | fuel + 1, c :: cs =>
    if leadsWith pat (c :: cs) then rep ++ replaceAllF pat rep fuel ((c :: cs).drop pat.length)
    else c :: replaceAllF pat rep fuel cs

/-- Model of Python `s.replace(pat, rep)` for nonempty `pat`: replaces
every non-overlapping occurrence, scanning left to right. -/
def pyReplace (s pat rep : List Char) : List Char := replaceAllF pat rep s.length s

/-- Model of Python `s.endswith("Z")`: the last character is `Z`. -/
def endsWithZ (l : List Char) : Bool := decide (l.getLast? = some 'Z')

/-- Lines 74-75 of src/app.py: when the string ends in `Z`, every `Z` in it
is replaced by `+00:00` (note: `str.replace` replaces all occurrences, not
only the trailing one). -/
def zPre (iso : List Char) : List Char :=
  if endsWithZ iso then pyReplace iso (pstr ("Z")) (pstr ("+00:00")) else iso

/-- Model of `parse_iso_utc(iso)` (src/app.py lines 72-80). -/
def parse_iso_utc (iso : List Char) : Except ParseErr PyDateTime :=
  match fromisoformat (zPre iso) with
  | none => .error .invalidFormat
  | some dt =>
    match astimezoneUTC (assumeUTC dt) with
    | none => .error .overflow
    | some r => .ok r

-- ------------------------- isoformat serialization -------------------------

/-- Decimal digit character for `n ≤ 9`. -/
def dchar (n : Nat) : Char := Char.ofNat (48 + n)

/-- Two-digit zero-padded print (`%02d` for `n ≤ 99`). -/
def print2 (n : Nat) : List Char := [dchar (n / 10), dchar (n % 10)]

/-- Four-digit zero-padded print (`%04d` for `n ≤ 9999`). -/
def print4 (n : Nat) : List Char :=
  [dchar (n / 1000), dchar (n / 100 % 10), dchar (n / 10 % 10), dchar (n % 10)]

/-- Six-digit zero-padded print (`%06d` for `n ≤ 999999`). -/
def print6 (n : Nat) : List Char :=
  [dchar (n / 100000), dchar (n / 10000 % 10), dchar (n / 1000 % 10),
   dchar (n / 100 % 10), dchar (n / 10 % 10), dchar (n % 10)]

/-- Model of `dt.isoformat()` for a UTC-aware datetime, as produced by the
view and time endpoints: `YYYY-MM-DDTHH:MM:SS[.ffffff]+00:00` (the
fractional part appears exactly when `microsecond ≠ 0`). -/
def isoformatUTC (dt : PyDateTime) : List Char :=
  print4 dt.year ++ pstr ("-") ++ print2 dt.month ++ pstr ("-") ++ print2 dt.day ++
  pstr ("T") ++ print2 dt.hour ++ pstr (":") ++ print2 dt.minute ++ pstr (":") ++
  print2 dt.second ++
  (if dt.microsecond = 0 then [] else pstr (".") ++ print6 dt.microsecond) ++
  pstr ("+00:00")

/-- Model of the serialization on src/app.py line 117 (and lines 89, 126):
`dt.astimezone(timezone.utc).isoformat().replace("+00:00", "Z")`. -/
def serializeZ (dt : PyDateTime) : Option (List Char) :=
  (astimezoneUTC dt).map (fun r => pyReplace (isoformatUTC r) (pstr ("+00:00")) (pstr ("Z")))

-- ------------------------- create handler -------------------------

/-- ASCII whitespace stripped by Python's `str.strip()` (the Unicode
whitespace code points above 0x7f never occur in this development). -/
def pySpace (c : Char) : Bool :=
  c = ' ' || c = '\t' || c = '\n' || c = '\r' || c = '\x0b' || c = '\x0c'

/-- Model of Python `s.strip()`: drop leading and trailing whitespace. -/
def pyStrip (l : List Char) : List Char :=
  ((l.dropWhile pySpace).reverse.dropWhile pySpace).reverse

/-- A persisted row of the `events` table (the fields the handlers use). -/
structure EventRec where
  slug : List Char
  title : List Char
  until_utc : PyDateTime
deriving DecidableEq, Repr

/-- Outcome of the `create` route as seen by the client. -/
inductive HResp
  | badRequest
  | found (loc : List Char)
  | serverError
deriving DecidableEq, Repr

/-- Result of a `create` request: the HTTP response and the resulting
contents of the `events` table. -/
structure CreateOut where
  resp : HResp
  db : List EventRec
deriving DecidableEq, Repr

/-- Model of the `create` route (src/app.py lines 92-108).  `dbCheck` is
the table contents the slug-allocation queries see, `dbInsert` the
contents at commit time; the two coincide except under the check-then-
insert race with a concurrent request.  The store-level unique constraint
makes the commit raise `IntegrityError` when the allocated slug is already
present at insert time; the route has no handler for it (nor for slug
allocation exhausting the call stack), so those paths surface as a
generic server error. -/
def create (dbCheck dbInsert : List EventRec) (src : Nat → Fin 36) (fuel : Nat)
    (titleF untilF : Option (List Char)) : CreateOut :=
  let title := pyStrip (titleF.getD [])
  let until_iso := pyStrip (untilF.getD [])
  if title = [] ∨ until_iso = [] then ⟨.badRequest, dbInsert⟩
  else
    match parse_iso_utc until_iso with
    | .error _ => ⟨.badRequest, dbInsert⟩
    | .ok until_utc =>
      match ensure_unique_slug (dbCheck.map EventRec.slug) src fuel 0 6 with
      | none => ⟨.serverError, dbInsert⟩
      | some slug =>
        if slug ∈ dbInsert.map EventRec.slug then ⟨.serverError, dbInsert⟩
        else ⟨.found (pstr ("/e/") ++ slug), dbInsert ++ [⟨slug, title.take 200, until_utc⟩]⟩

/-- Fixed random source used by concrete witnesses: every draw is index 0
(the letter `a`). -/
def zeroSrc : Nat → Fin 36 := fun _ => 0

-- ------------------------- claims about the slug generator -------------------------

/-- C3: for every `length ≥ 1`, `gen_slug` returns (totally, for any random
source) a string of exactly `length` characters, each drawn from the
36-symbol alphabet. -/
theorem C3_gen_slug_length_and_alphabet (src : Nat → Fin 36) (pos n : Nat) (h : 1 ≤ n) :
    (gen_slug src pos n).length = n ∧ ∀ c ∈ gen_slug src pos n, c ∈ ALPHABET :=
  ⟨gen_slug_length src pos n, gen_slug_mem_alphabet src pos n⟩

/-- C3 witness: the generic theorem instantiated at length 6. -/
theorem C3_witness :
    1 ≤ 6 ∧ ((gen_slug zeroSrc 0 6).length = 6 ∧ ∀ c ∈ gen_slug zeroSrc 0 6, c ∈ ALPHABET) :=
  ⟨by decide, C3_gen_slug_length_and_alphabet zeroSrc 0 6 (by decide)⟩

/-- C10: at the edge of the stated precondition `gen_slug` does not fail:
`gen_slug src pos 0` is the empty string, and for every `n ≥ 0` the result
is a string over the alphabet of exactly that length. -/
theorem C10_gen_slug_total_at_zero (src : Nat → Fin 36) (pos : Nat) :
    gen_slug src pos 0 = [] ∧
      ∀ n, (gen_slug src pos n).length = n ∧ ∀ c ∈ gen_slug src pos n, c ∈ ALPHABET :=
  ⟨gen_slug_zero src pos,
   fun n => ⟨gen_slug_length src pos n, gen_slug_mem_alphabet src pos n⟩⟩

/-- C1: for a store of `N` distinct slugs with `N < 36^n`,
`ensure_unique_slug` (i) only ever returns a slug absent from the store;
(ii) the ten-attempt loop at length `n` returns the first of its (at most
ten) candidates that is absent from the store; (iii) such a first free
candidate is the overall result; (iv) if all ten attempts collide the
function recurses at length `n+1` with the attempt counter reset (a fresh
ten-attempt loop); and (v) with call depth adequate for the (finite) store
the function does return a slug, one absent from the store. -/
theorem C1_ensure_unique_slug_spec (store : List (List Char)) (src : Nat → Fin 36)
    (fuel pos n : Nat) (hN : store.dedup.length < 36 ^ n) :
    (∀ s, ensure_unique_slug store src fuel pos n = some s → s ∉ store) ∧
    (∀ s, tryLoop store src pos n 10 = some s →
        ∃ i < 10, s = gen_slug src (pos + i * n) n ∧ s ∉ store ∧
          ∀ j < i, gen_slug src (pos + j * n) n ∈ store) ∧
    (∀ s, tryLoop store src pos n 10 = some s →
        ensure_unique_slug store src (fuel + 1) pos n = some s) ∧
    (tryLoop store src pos n 10 = none →
        ensure_unique_slug store src (fuel + 1) pos n =
          ensure_unique_slug store src fuel (pos + 10 * n) (n + 1)) ∧
    (1 ≤ fuel → (∀ t ∈ store, t.length + 2 ≤ n + fuel) →
        ∃ s, ensure_unique_slug store src fuel pos n = some s ∧ s ∉ store) := by
  refine ⟨fun s h => ensure_unique_slug_not_mem store src fuel pos n s h,
    fun s h => tryLoop_first store src n 10 pos s h,
    fun s h => ?_, fun h => ?_,
    fun h1 h2 => ensure_unique_slug_total store src fuel pos n h1 h2⟩
  · rw [ensure_unique_slug_succ, h]
  · rw [ensure_unique_slug_succ, h]

/-- C1 witness: a one-slug store, the constant random source, length 6 and
call depth 9. -/
theorem C1_witness :
    [pstr ("k3x9p2")].dedup.length < 36 ^ 6 ∧
    ((∀ s, ensure_unique_slug [pstr ("k3x9p2")] zeroSrc 9 0 6 = some s →
        s ∉ [pstr ("k3x9p2")]) ∧
    (∀ s, tryLoop [pstr ("k3x9p2")] zeroSrc 0 6 10 = some s →
        ∃ i < 10, s = gen_slug zeroSrc (0 + i * 6) 6 ∧ s ∉ [pstr ("k3x9p2")] ∧
          ∀ j < i, gen_slug zeroSrc (0 + j * 6) 6 ∈ [pstr ("k3x9p2")]) ∧
    (∀ s, tryLoop [pstr ("k3x9p2")] zeroSrc 0 6 10 = some s →
        ensure_unique_slug [pstr ("k3x9p2")] zeroSrc (9 + 1) 0 6 = some s) ∧
    (tryLoop [pstr ("k3x9p2")] zeroSrc 0 6 10 = none →
        ensure_unique_slug [pstr ("k3x9p2")] zeroSrc (9 + 1) 0 6 =
          ensure_unique_slug [pstr ("k3x9p2")] zeroSrc 9 (0 + 10 * 6) (6 + 1)) ∧
    (1 ≤ 9 → (∀ t ∈ [pstr ("k3x9p2")], t.length + 2 ≤ 6 + 9) →
        ∃ s, ensure_unique_slug [pstr ("k3x9p2")] zeroSrc 9 0 6 = some s ∧
          s ∉ [pstr ("k3x9p2")])) :=
  ⟨by decide, C1_ensure_unique_slug_spec [pstr ("k3x9p2")] zeroSrc 9 0 6 (by decide)⟩

-- ------------------------- calendar lemmas -------------------------

theorem daysBeforeMonth_succ (y m : Nat) (h1 : 1 ≤ m) (h2 : m ≤ 11) :
    daysBeforeMonth y (m + 1) = daysBeforeMonth y m + daysInMonth y m := by
  interval_cases m <;> cases hl : isLeap y <;>
    simp [daysBeforeMonth, daysInMonth, monthOffset, hl]

theorem isLeap_iff (y : Nat) :
    isLeap y = true ↔ (y % 4 = 0 ∧ (y % 100 ≠ 0 ∨ y % 400 = 0)) := by
  simp [isLeap, Bool.and_eq_true, Bool.or_eq_true, bne_iff_ne, decide_eq_true_eq]

set_option maxHeartbeats 1600000 in
theorem yearDays_shift (z : Nat) (hz : 1 ≤ z) :
    365 * (z - 1) + (z - 1) / 4 - (z - 1) / 100 + (z - 1) / 400 +
        (if isLeap z = true then 366 else 365) =
      365 * z + z / 4 - z / 100 + z / 400 := by
  cases hl : isLeap z with
  | true =>
    have hl2 := (isLeap_iff z).mp hl
    simp only [if_true]
    omega
  | false =>
    have hl2 : ¬(z % 4 = 0 ∧ (z % 100 ≠ 0 ∨ z % 400 = 0)) := by
      rw [← isLeap_iff, hl]; simp
    simp only [show ((false = true) = False) from by simp, if_false]
    omega

theorem toOrdinal_prevDay (y m d : Nat) (hm1 : 1 ≤ m) (hm2 : m ≤ 12)
    (hd1 : 1 ≤ d) (hne : ¬(y = 1 ∧ m = 1 ∧ d = 1)) (hy : 1 ≤ y) :
    toOrdinal (prevDay y m d).1 (prevDay y m d).2.1 (prevDay y m d).2.2 + 1 =
      toOrdinal y m d := by
  unfold prevDay
  by_cases hd : 2 ≤ d
  · rw [if_pos hd]
    simp only [toOrdinal]
    omega
  · by_cases hm : 2 ≤ m
    · rw [if_neg hd, if_pos hm]
      have hdm := daysBeforeMonth_succ y (m - 1) (by omega) (by omega)
      have hmm : m - 1 + 1 = m := by omega
      rw [hmm] at hdm
      simp only [toOrdinal]
      omega
    · rw [if_neg hd, if_neg hm]
      have hmeq : m = 1 := by omega
      have hdeq : d = 1 := by omega
      subst hmeq hdeq
      have hy2 : 2 ≤ y := by simp at hne; omega
      simp only [toOrdinal]
      have h12 : daysBeforeMonth (y - 1) 12 = 334 + (if isLeap (y - 1) = true then 1 else 0) := by
        simp [daysBeforeMonth, monthOffset]
      have h1 : daysBeforeMonth y 1 = 0 := by
        simp [daysBeforeMonth, monthOffset]
      have hshift := yearDays_shift (y - 1) (by omega)
      rw [h12, h1]
      cases hl : isLeap (y - 1) with
      | true =>
        rw [hl] at hshift
        simp only [if_true] at hshift ⊢
        omega
      | false =>
        rw [hl] at hshift
        simp only [show ((false = true) = False) from by simp, if_false] at hshift ⊢
        omega

theorem toOrdinal_nextDay (y m d : Nat) (hm1 : 1 ≤ m) (hm2 : m ≤ 12)
    (hd1 : 1 ≤ d) (hd2 : d ≤ daysInMonth y m) (hne : ¬(y = 9999 ∧ m = 12 ∧ d = 31))
    (hy : 1 ≤ y) :
    toOrdinal (nextDay y m d).1 (nextDay y m d).2.1 (nextDay y m d).2.2 =
      toOrdinal y m d + 1 := by
  unfold nextDay
  by_cases hd : d + 1 ≤ daysInMonth y m
  · rw [if_pos hd]
    simp only [toOrdinal]
    omega
  · have hdeq : d = daysInMonth y m := by omega
    by_cases hm : m + 1 ≤ 12
    · rw [if_neg hd, if_pos hm]
      have hdm := daysBeforeMonth_succ y m (by omega) (by omega)
      simp only [toOrdinal]
      omega
    · rw [if_neg hd, if_neg hm]
      have hmeq : m = 12 := by omega
      subst hmeq
      have hd31 : d = 31 := by
        rw [hdeq]; simp [daysInMonth]
      subst hd31
      simp only [toOrdinal]
      have h12 : daysBeforeMonth y 12 = 334 + (if isLeap y = true then 1 else 0) := by
        simp [daysBeforeMonth, monthOffset]
      have h1 : daysBeforeMonth (y + 1) 1 = 0 := by
        simp [daysBeforeMonth, monthOffset]
      have hshift := yearDays_shift y hy
      rw [h12, h1]
      cases hl : isLeap y with
      | true =>
        rw [hl] at hshift
        simp only [if_true] at hshift ⊢
        omega
      | false =>
        rw [hl] at hshift
        simp only [show ((false = true) = False) from by simp, if_false] at hshift ⊢
        omega

-- ------------------------- astimezone lemmas -------------------------

theorem validDT_fields (dt : PyDateTime) (hv : validDT dt = true) :
    1 ≤ dt.year ∧ dt.year ≤ 9999 ∧ 1 ≤ dt.month ∧ dt.month ≤ 12 ∧ 1 ≤ dt.day ∧
    dt.day ≤ daysInMonth dt.year dt.month ∧ dt.hour ≤ 23 ∧ dt.minute ≤ 59 ∧
    dt.second ≤ 59 ∧ dt.microsecond ≤ 999999 := by
  simp only [validDT, Bool.and_eq_true, decide_eq_true_eq] at hv
  tauto
theorem validDT_off (dt : PyDateTime) (o : Int) (hv : validDT dt = true)
    (ho : dt.tzoffset = some o) : -1440 < o ∧ o < 1440 := by
  simp only [validDT, Bool.and_eq_true, decide_eq_true_eq] at hv
  have h2 := hv.2
  rw [ho] at h2
  simpa using h2

theorem astimezoneUTC_tz (dt r : PyDateTime) (h : astimezoneUTC dt = some r) :
    r.tzoffset = some 0 := by
  obtain ⟨y, mo, d, hh, mi, se, us, tz⟩ := dt
  cases tz with
  | none => simp [astimezoneUTC] at h
  | some o =>
    simp only [astimezoneUTC] at h
    split_ifs at h <;> (obtain rfl := Option.some.inj h; rfl)

theorem astimezoneUTC_ticks (dt r : PyDateTime) (hv : validDT dt = true)
    (h : astimezoneUTC dt = some r) : utcTicks r = utcTicks dt := by
  obtain ⟨hy1, hy2, hm1, hm2, hd1, hd2, hhr, hmin, hsec, hus⟩ := validDT_fields dt hv
  obtain ⟨y, mo, d, hh, mi, se, us, tz⟩ := dt
  cases tz with
  | none => simp [astimezoneUTC] at h
  | some o =>
    obtain ⟨ho1, ho2⟩ := validDT_off _ o hv rfl
    simp only at hy1 hy2 hm1 hm2 hd1 hd2 hhr hmin hsec hus
    simp only [astimezoneUTC] at h
    split_ifs at h with h1 h2 h3 h4
    · obtain rfl := Option.some.inj h
      simp only [utcTicks, Option.getD]
      omega
    · obtain rfl := Option.some.inj h
      have hprev := toOrdinal_prevDay y mo d hm1 hm2 hd1 h3 hy1
      simp only [utcTicks, Option.getD]
      omega
    · obtain rfl := Option.some.inj h
      have hnext := toOrdinal_nextDay y mo d hm1 hm2 hd1 hd2 h4 hy1
      simp only [utcTicks, Option.getD]
      omega

theorem astimezoneUTC_id0 (dt : PyDateTime) (hv : validDT dt = true)
    (h0 : dt.tzoffset = some 0) : astimezoneUTC dt = some dt := by
  obtain ⟨hy1, hy2, hm1, hm2, hd1, hd2, hhr, hmin, hsec, hus⟩ := validDT_fields dt hv
  obtain ⟨y, mo, d, hh, mi, se, us, tz⟩ := dt
  simp only at h0
  subst h0
  simp only at hhr hmin
  simp only [astimezoneUTC]
  rw [if_pos (by omega)]
  have e1 : ((hh : Int) * 60 + (mi : Int) - 0).toNat / 60 = hh := by omega
  have e2 : ((hh : Int) * 60 + (mi : Int) - 0).toNat % 60 = mi := by omega
  rw [e1, e2]

-- ------------------------- fromisoformat lemmas -------------------------

theorem fromisoformat_valid (s : List Char) (d : PyDateTime)
    (h : fromisoformat s = some d) : validDT d = true := by
  unfold fromisoformat at h
  cases h1 : parse4 s with
  | none => simp only [h1] at h; exact Option.noConfusion h
  | some p1 =>
    obtain ⟨y, r1⟩ := p1
    simp only [h1] at h
    cases h2 : expectCh '-' r1 with
    | none => simp only [h2] at h; exact Option.noConfusion h
    | some r2 =>
      simp only [h2] at h
      cases h3 : parse2 r2 with
      | none => simp only [h3] at h; exact Option.noConfusion h
      | some p2 =>
        obtain ⟨mo, r3⟩ := p2
        simp only [h3] at h
        cases h4 : expectCh '-' r3 with
        | none => simp only [h4] at h; exact Option.noConfusion h
        | some r4 =>
          simp only [h4] at h
          cases h5 : parse2 r4 with
          | none => simp only [h5] at h; exact Option.noConfusion h
          | some p3 =>
            obtain ⟨dd, r5⟩ := p3
            simp only [h5] at h
            cases r5 with
            | nil =>
              simp only at h
              split at h
              · exact Option.some.inj h ▸ (by assumption)
              · cases h
            | cons c tr =>
              simp only at h
              cases h6 : parseTimePart tr with
              | none => simp only [h6] at h; exact Option.noConfusion h
              | some p4 =>
                obtain ⟨hh, mi, se, us, r6⟩ := p4
                simp only [h6] at h
                cases h7 : parseOffsetEnd r6 with
                | none => simp only [h7] at h; exact Option.noConfusion h
                | some off =>
                  simp only [h7] at h
                  split at h
                  · exact Option.some.inj h ▸ (by assumption)
                  · cases h

theorem assumeUTC_none (d : PyDateTime) (h : d.tzoffset = none) :
    assumeUTC d = { d with tzoffset := some 0 } := by
  obtain ⟨y, mo, dd, hh, mi, se, us, tz⟩ := d
  simp only at h
  subst h
  rfl

theorem validDT_assumeUTC (d : PyDateTime) (hv : validDT d = true) :
    validDT (assumeUTC d) = true := by
  obtain ⟨y, mo, dd, hh, mi, se, us, tz⟩ := d
  cases tz with
  | none =>
    simp only [assumeUTC, validDT, Bool.and_eq_true, decide_eq_true_eq] at hv ⊢
    tauto
  | some o => exact hv

/-- C2: a successful `parse_iso_utc` result is always timezone-aware UTC;
when the parsed value carries no offset it is assumed to already represent
UTC (the calendar fields are kept exactly, with no local-timezone
inference), and in every case the result denotes the same point in time as
the parsed input read under that assumption; in particular
`parse_to_utc("2025-09-22T15:30:00")` yields `2025-09-22T15:30:00Z`. -/
theorem C2_parse_iso_utc_is_utc (s : List Char) (r d : PyDateTime)
    (hr : parse_iso_utc s = .ok r) (hd : fromisoformat (zPre s) = some d) :
    r.tzoffset = some 0 ∧
    (d.tzoffset = none → r = { d with tzoffset := some 0 }) ∧
    utcTicks r = utcTicks (assumeUTC d) ∧
    parse_iso_utc (pstr ("2025-09-22T15:30:00")) =
      .ok ⟨2025, 9, 22, 15, 30, 0, 0, some 0⟩ := by
  have hv := fromisoformat_valid _ _ hd
  have hva := validDT_assumeUTC d hv
  unfold parse_iso_utc at hr
  rw [hd] at hr
  cases ha : astimezoneUTC (assumeUTC d) with
  | none => simp only [ha] at hr; exact Except.noConfusion hr
  | some r2 =>
    simp only [ha] at hr
    obtain rfl : r2 = r := Except.ok.inj hr
    refine ⟨astimezoneUTC_tz _ _ ha, ?_, astimezoneUTC_ticks _ _ hva ha, rfl⟩
    intro hnone
    have hid := astimezoneUTC_id0 (assumeUTC d) hva (by rw [assumeUTC_none d hnone])
    rw [ha] at hid
    rw [Option.some.inj hid, assumeUTC_none d hnone]

/-- C2 witness: the theorem applied to the concrete no-offset example. -/
theorem C2_witness :
    (⟨2025, 9, 22, 15, 30, 0, 0, some 0⟩ : PyDateTime).tzoffset = some 0 ∧
    ((⟨2025, 9, 22, 15, 30, 0, 0, none⟩ : PyDateTime).tzoffset = none →
      (⟨2025, 9, 22, 15, 30, 0, 0, some 0⟩ : PyDateTime) =
        { (⟨2025, 9, 22, 15, 30, 0, 0, none⟩ : PyDateTime) with tzoffset := some 0 }) ∧
    utcTicks ⟨2025, 9, 22, 15, 30, 0, 0, some 0⟩ =
      utcTicks (assumeUTC ⟨2025, 9, 22, 15, 30, 0, 0, none⟩) ∧
    parse_iso_utc (pstr ("2025-09-22T15:30:00")) =
      .ok ⟨2025, 9, 22, 15, 30, 0, 0, some 0⟩ :=
  C2_parse_iso_utc_is_utc (pstr ("2025-09-22T15:30:00"))
    ⟨2025, 9, 22, 15, 30, 0, 0, some 0⟩ ⟨2025, 9, 22, 15, 30, 0, 0, none⟩ rfl rfl

-- ------------------------- str.replace lemmas -------------------------

theorem leadsWith_refl (l : List Char) : leadsWith l l = true := by
  induction l with
  | nil => rfl
  | cons c cs ih => simp [leadsWith, ih]

theorem leadsWith_cons_ne (p c : Char) (ps cs : List Char) (h : p ≠ c) :
    leadsWith (p :: ps) (c :: cs) = false := by
  simp [leadsWith, h]

theorem replaceAllF_append_pat (p : Char) (ps rep : List Char) :
    ∀ s : List Char, p ∉ s → ∀ fuel, s.length + 1 ≤ fuel →
      replaceAllF (p :: ps) rep fuel (s ++ (p :: ps)) = s ++ rep := by
  intro s
  induction s with
  | nil =>
    intro _ fuel hf
    match fuel, hf with
    | fuel + 1, _ =>
      simp only [List.nil_append]
      rw [replaceAllF, if_pos (leadsWith_refl (p :: ps))]
      simp only [List.drop_length]
      cases fuel <;> simp [replaceAllF]
  | cons c cs ih =>
    intro hp fuel hf
    simp only [List.mem_cons, not_or] at hp
    match fuel, hf with
    | fuel + 1, hf2 =>
      simp only [List.cons_append]
      rw [replaceAllF, if_neg (by simp [leadsWith_cons_ne p c ps (cs ++ p :: ps) hp.1])]
      rw [ih hp.2 fuel (by simpa using hf2)]

theorem pyReplace_append_pat (p : Char) (ps rep s : List Char) (hp : p ∉ s) :
    pyReplace (s ++ (p :: ps)) (p :: ps) rep = s ++ rep := by
  unfold pyReplace
  exact replaceAllF_append_pat p ps rep s hp _ (by simp)

theorem endsWithZ_concat (s : List Char) (c : Char) :
    endsWithZ (s ++ [c]) = decide (c = 'Z') := by
  simp [endsWithZ, List.getLast?_concat]

theorem zPre_append_Z (s : List Char) (hz : 'Z' ∉ s) :
    zPre (s ++ pstr ("Z")) = s ++ pstr ("+00:00") := by
  unfold zPre
  rw [show (pstr ("Z")) = ['Z'] from rfl, if_pos (by simp [endsWithZ_concat])]
  exact pyReplace_append_pat 'Z' [] (pstr ("+00:00")) s hz

theorem endsWithZ_append_offset (s : List Char) :
    endsWithZ (s ++ pstr ("+00:00")) = false := by
  have h : s ++ pstr ("+00:00") = (s ++ pstr ("+00:0")) ++ ['0'] := by
    simp [pstr]
  rw [h, endsWithZ_concat]
  decide

theorem zPre_not_Z (s : List Char) (h : endsWithZ s = false) : zPre s = s := by
  simp [zPre, h]

-- ------------------------- claims C5 and C6 -------------------------

/-- C5 counterexample: `"2025-09-22Z15:30:00"` is a date-time body — the
date-time separator may be any character, here `Z` — whose `+00:00` form
parses to an instant, while its `Z`-suffixed form fails: line 75 replaces
every `Z` in the string, not only the trailing one, mangling the
separator.  So the two forms do not always yield the same instant. -/
theorem C5_counterexample :
    fromisoformat (pstr ("2025-09-22Z15:30:00") ++ pstr ("+00:00")) =
      some ⟨2025, 9, 22, 15, 30, 0, 0, some 0⟩ ∧
    parse_iso_utc (pstr ("2025-09-22Z15:30:00") ++ pstr ("+00:00")) =
      .ok ⟨2025, 9, 22, 15, 30, 0, 0, some 0⟩ ∧
    parse_iso_utc (pstr ("2025-09-22Z15:30:00") ++ pstr ("Z")) =
      .error .invalidFormat :=
  ⟨rfl, rfl, rfl⟩

/-- C5 (amended): for every date-time body that does not itself contain the
character `Z` — in particular every body written with the standard `T`
separator — appending `Z` and appending `+00:00` yield identical results;
in particular at the body `"2025-09-22T15:30:00"`. -/
theorem C5_trailing_Z_equiv_no_Z (s : List Char) (hz : 'Z' ∉ s) :
    parse_iso_utc (s ++ pstr ("Z")) = parse_iso_utc (s ++ pstr ("+00:00")) ∧
    parse_iso_utc (pstr ("2025-09-22T15:30:00Z")) =
      parse_iso_utc (pstr ("2025-09-22T15:30:00+00:00")) := by
  constructor
  · unfold parse_iso_utc
    rw [zPre_append_Z s hz, zPre_not_Z _ (endsWithZ_append_offset s)]
  · rfl

/-- C5 witness: the amended theorem at the body of the claim's example. -/
theorem C5_witness :
    'Z' ∉ pstr ("2025-09-22T15:30:00") ∧
    (parse_iso_utc (pstr ("2025-09-22T15:30:00") ++ pstr ("Z")) =
        parse_iso_utc (pstr ("2025-09-22T15:30:00") ++ pstr ("+00:00")) ∧
      parse_iso_utc (pstr ("2025-09-22T15:30:00Z")) =
        parse_iso_utc (pstr ("2025-09-22T15:30:00+00:00"))) :=
  ⟨by decide, C5_trailing_Z_equiv_no_Z (pstr ("2025-09-22T15:30:00")) (by decide)⟩

/-- C6 counterexample: `"0001-01-01T00:00:00+01:00"` parses as a date-time,
yet `parse_iso_utc` fails on it — with an overflow, not an invalid-format
error — because the conversion to UTC leaves the supported year range.
So the function does not fail exactly on unparseable inputs. -/
theorem C6_counterexample :
    fromisoformat (zPre (pstr ("0001-01-01T00:00:00+01:00"))) =
      some ⟨1, 1, 1, 0, 0, 0, 0, some 60⟩ ∧
    parse_iso_utc (pstr ("0001-01-01T00:00:00+01:00")) = .error .overflow :=
  ⟨rfl, rfl⟩

/-- C6 (amended): `parse_iso_utc` fails with the invalid-format error
exactly when the (Z-preprocessed) input cannot be parsed as a date-time —
for example on `"not-a-date"` — and additionally fails (with an overflow
error) on the rare parseable inputs whose conversion to UTC leaves years
1–9999; the create handler maps any such failure on `until_iso` to a 400
response, leaving the store unchanged. -/
theorem C6_parse_failure_modes (s : List Char) :
    (parse_iso_utc s = .error .invalidFormat ↔ fromisoformat (zPre s) = none) ∧
    parse_iso_utc (pstr ("not-a-date")) = .error .invalidFormat ∧
    (∀ dbC dbI src fuel t u e, parse_iso_utc (pyStrip u) = .error e →
      pyStrip t ≠ [] → pyStrip u ≠ [] →
      create dbC dbI src fuel (some t) (some u) = ⟨.badRequest, dbI⟩) := by
  refine ⟨?_, rfl, ?_⟩
  · unfold parse_iso_utc
    cases hf : fromisoformat (zPre s) with
    | none => simp
    | some dt =>
      simp only
      cases ha : astimezoneUTC (assumeUTC dt) with
      | none => simp
      | some r => simp
  · intro dbC dbI src fuel t u e hparse ht hu
    unfold create
    rw [if_neg (by simp [ht, hu])]
    simp only [Option.getD]
    rw [hparse]

/-- C6 witness: the amended theorem instantiated at the claim's example
input. -/
theorem C6_witness :
    parse_iso_utc (pstr ("not-a-date")) = .error .invalidFormat :=
  (C6_parse_failure_modes (pstr ("not-a-date"))).2.1

-- ------------------------- create handler lemmas -------------------------

theorem create_success (db : List EventRec) (src : Nat → Fin 36) (fuel : Nat)
    (t u : List Char) (untilUtc : PyDateTime)
    (hfuel : 1 ≤ fuel) (hlen : ∀ e ∈ db, e.slug.length + 2 ≤ 6 + fuel)
    (hparse : parse_iso_utc (pyStrip u) = .ok untilUtc)
    (ht : pyStrip t ≠ []) (hu : pyStrip u ≠ []) :
    ∃ s, create db db src fuel (some t) (some u) =
        ⟨.found (pstr ("/e/") ++ s), db ++ [⟨s, (pyStrip t).take 200, untilUtc⟩]⟩ ∧
      s ∉ db.map EventRec.slug ∧
      ensure_unique_slug (db.map EventRec.slug) src fuel 0 6 = some s := by
  obtain ⟨s, hs, hns⟩ := ensure_unique_slug_total (db.map EventRec.slug) src fuel 0 6 hfuel
    (by
      intro a ha
      simp only [List.mem_map] at ha
      obtain ⟨e, he, rfl⟩ := ha
      exact hlen e he)
  refine ⟨s, ?_, hns, hs⟩
  unfold create
  simp only [Option.getD]
  rw [if_neg (by tauto), hparse, hs]
  simp only
  rw [if_neg hns]

/-- C7: the create operation responds 400 whenever the submitted title or
until_iso is blank after trimming, leaving the store unchanged; when both
are non-blank and until_iso parses, it persists exactly one new event (the
trimmed, truncated title and the parsed UTC deadline under a fresh slug)
and redirects to the view route `/e/<slug>` for the allocated slug. -/
theorem C7_create_validation (db : List EventRec) (src : Nat → Fin 36) (fuel : Nat)
    (t u : List Char) (untilUtc : PyDateTime)
    (hfuel : 1 ≤ fuel) (hlen : ∀ e ∈ db, e.slug.length + 2 ≤ 6 + fuel) :
    ((pyStrip t = [] ∨ pyStrip u = []) →
        create db db src fuel (some t) (some u) = ⟨.badRequest, db⟩) ∧
    (parse_iso_utc (pyStrip u) = .ok untilUtc → pyStrip t ≠ [] → pyStrip u ≠ [] →
        ∃ s, create db db src fuel (some t) (some u) =
            ⟨.found (pstr ("/e/") ++ s), db ++ [⟨s, (pyStrip t).take 200, untilUtc⟩]⟩ ∧
          s ∉ db.map EventRec.slug) := by
  constructor
  · intro h
    unfold create
    simp only [Option.getD]
    rw [if_pos h]
  · intro hparse ht hu
    obtain ⟨s, hc, hns, _⟩ := create_success db src fuel t u untilUtc hfuel hlen hparse ht hu
    exact ⟨s, hc, hns⟩

/-- C7 witness: the theorem applied to an empty store, with a blank title
on one side and a valid creation on the other. -/
theorem C7_witness :
    1 ≤ 1 ∧ (∀ e ∈ ([] : List EventRec), e.slug.length + 2 ≤ 6 + 1) ∧
    (((pyStrip (pstr ("Party")) = [] ∨ pyStrip (pstr ("2025-09-22T15:30:00Z")) = []) →
        create [] [] zeroSrc 1 (some (pstr ("Party")))
            (some (pstr ("2025-09-22T15:30:00Z"))) = ⟨.badRequest, []⟩) ∧
      (parse_iso_utc (pyStrip (pstr ("2025-09-22T15:30:00Z"))) =
            .ok ⟨2025, 9, 22, 15, 30, 0, 0, some 0⟩ →
        pyStrip (pstr ("Party")) ≠ [] → pyStrip (pstr ("2025-09-22T15:30:00Z")) ≠ [] →
        ∃ s, create [] [] zeroSrc 1 (some (pstr ("Party")))
              (some (pstr ("2025-09-22T15:30:00Z"))) =
            ⟨.found (pstr ("/e/") ++ s),
              [] ++ [⟨s, (pyStrip (pstr ("Party"))).take 200, ⟨2025, 9, 22, 15, 30, 0, 0, some 0⟩⟩]⟩ ∧
          s ∉ ([] : List EventRec).map EventRec.slug)) :=
  ⟨by decide, by simp,
    C7_create_validation [] zeroSrc 1 (pstr ("Party")) (pstr ("2025-09-22T15:30:00Z"))
      ⟨2025, 9, 22, 15, 30, 0, 0, some 0⟩ (by decide) (by simp)⟩

/-- C8: the title stored with a created event is the trimmed submitted
title truncated to 200 characters: exactly 200 characters when the trimmed
title is longer than 200, and the trimmed title unchanged otherwise. -/
theorem C8_title_truncated (db : List EventRec) (src : Nat → Fin 36) (fuel : Nat)
    (t u : List Char) (untilUtc : PyDateTime)
    (hfuel : 1 ≤ fuel) (hlen : ∀ e ∈ db, e.slug.length + 2 ≤ 6 + fuel)
    (hparse : parse_iso_utc (pyStrip u) = .ok untilUtc)
    (ht : pyStrip t ≠ []) (hu : pyStrip u ≠ []) :
    ∃ s, create db db src fuel (some t) (some u) =
        ⟨.found (pstr ("/e/") ++ s), db ++ [⟨s, (pyStrip t).take 200, untilUtc⟩]⟩ ∧
      (200 < (pyStrip t).length → ((pyStrip t).take 200).length = 200) ∧
      ((pyStrip t).length ≤ 200 → (pyStrip t).take 200 = pyStrip t) := by
  obtain ⟨s, hc, _, _⟩ := create_success db src fuel t u untilUtc hfuel hlen hparse ht hu
  refine ⟨s, hc, fun hgt => ?_, fun hle => ?_⟩
  · rw [List.length_take]
    omega
  · exact List.take_of_length_le hle

/-- C8 witness: the theorem instantiated at a concrete creation. -/
theorem C8_witness :
    ∃ s, create [] [] zeroSrc 1 (some (pstr ("Party")))
          (some (pstr ("2025-09-22T15:30:00Z"))) =
        ⟨.found (pstr ("/e/") ++ s),
          [] ++ [⟨s, (pyStrip (pstr ("Party"))).take 200, ⟨2025, 9, 22, 15, 30, 0, 0, some 0⟩⟩]⟩ ∧
      (200 < (pyStrip (pstr ("Party"))).length →
          ((pyStrip (pstr ("Party"))).take 200).length = 200) ∧
      ((pyStrip (pstr ("Party"))).length ≤ 200 →
          (pyStrip (pstr ("Party"))).take 200 = pyStrip (pstr ("Party"))) :=
  C8_title_truncated [] zeroSrc 1 (pstr ("Party")) (pstr ("2025-09-22T15:30:00Z"))
    ⟨2025, 9, 22, 15, 30, 0, 0, some 0⟩ (by decide) (by simp) rfl (by decide) (by decide)

/-- C4: the code does not implement the retry the spec asks for.  In the
check-then-insert race — here: the store is empty when the slug is
allocated, but a concurrent request has already committed the same slug by
insert time — the store-level uniqueness violation raised at commit
propagates out of the route unhandled and surfaces to the user as a
generic server error; slug allocation is not retried and nothing is
persisted. -/
theorem C4_race_surfaces_server_error :
    create [] [⟨gen_slug zeroSrc 0 6, pstr ("x"), ⟨2025, 1, 1, 0, 0, 0, 0, some 0⟩⟩]
        zeroSrc 1 (some (pstr ("Party"))) (some (pstr ("2025-09-22T15:30:00Z"))) =
      ⟨.serverError, [⟨gen_slug zeroSrc 0 6, pstr ("x"), ⟨2025, 1, 1, 0, 0, 0, 0, some 0⟩⟩]⟩ :=
  rfl

-- ------------------------- printer-parser lemmas -------------------------

theorem isDig_dchar (n : Nat) (h : n ≤ 9) : isDig (dchar n) = true := by
  interval_cases n <;> decide

theorem digVal_dchar (n : Nat) (h : n ≤ 9) : digVal (dchar n) = n := by
  interval_cases n <;> decide

theorem parse2_print2 (n : Nat) (h : n ≤ 99) (r : List Char) :
    parse2 (print2 n ++ r) = some (n, r) := by
  have h1 : n / 10 ≤ 9 := by omega
  have h2 : n % 10 ≤ 9 := by omega
  simp only [print2, List.cons_append, List.nil_append, parse2,
    isDig_dchar _ h1, isDig_dchar _ h2, Bool.and_self, if_true,
    digVal_dchar _ h1, digVal_dchar _ h2]
  have he : n / 10 * 10 + n % 10 = n := by omega
  rw [he]

theorem parse4_print4 (n : Nat) (h : n ≤ 9999) (r : List Char) :
    parse4 (print4 n ++ r) = some (n, r) := by
  have h1 : n / 1000 ≤ 9 := by omega
  have h2 : n / 100 % 10 ≤ 9 := by omega
  have h3 : n / 10 % 10 ≤ 9 := by omega
  have h4 : n % 10 ≤ 9 := by omega
  simp only [print4, List.cons_append, List.nil_append, parse4,
    isDig_dchar _ h1, isDig_dchar _ h2, isDig_dchar _ h3, isDig_dchar _ h4,
    Bool.and_self, if_true,
    digVal_dchar _ h1, digVal_dchar _ h2, digVal_dchar _ h3, digVal_dchar _ h4]
  have he : ((n / 1000 * 10 + n / 100 % 10) * 10 + n / 10 % 10) * 10 + n % 10 = n := by omega
  rw [he]

theorem digitRun_cons_digit (c : Char) (l : List Char) (h : isDig c = true) :
    digitRun (c :: l) = (digVal c :: (digitRun l).1, (digitRun l).2) := by
  simp [digitRun, h]

theorem digitRun_cons_nondigit (c : Char) (l : List Char) (h : isDig c = false) :
    digitRun (c :: l) = ([], c :: l) := by
  simp [digitRun, h]

theorem digitRun_print6 (us : Nat) (hus : us ≤ 999999) (r : List Char) :
    digitRun (print6 us ++ ('+' :: r)) =
      ([us / 100000, us / 10000 % 10, us / 1000 % 10, us / 100 % 10, us / 10 % 10, us % 10],
        '+' :: r) := by
  have h1 : us / 100000 ≤ 9 := by omega
  have h2 : us / 10000 % 10 ≤ 9 := by omega
  have h3 : us / 1000 % 10 ≤ 9 := by omega
  have h4 : us / 100 % 10 ≤ 9 := by omega
  have h5 : us / 10 % 10 ≤ 9 := by omega
  have h6 : us % 10 ≤ 9 := by omega
  simp only [print6, List.cons_append, List.nil_append]
  rw [digitRun_cons_digit _ _ (isDig_dchar _ h1), digitRun_cons_digit _ _ (isDig_dchar _ h2),
    digitRun_cons_digit _ _ (isDig_dchar _ h3), digitRun_cons_digit _ _ (isDig_dchar _ h4),
    digitRun_cons_digit _ _ (isDig_dchar _ h5), digitRun_cons_digit _ _ (isDig_dchar _ h6),
    digitRun_cons_nondigit '+' r (by decide)]
  simp [digVal_dchar _ h1, digVal_dchar _ h2, digVal_dchar _ h3, digVal_dchar _ h4,
    digVal_dchar _ h5, digVal_dchar _ h6]

theorem parseFrac_print6 (us : Nat) (hus : us ≤ 999999) (r : List Char) :
    parseFrac (print6 us ++ ('+' :: r)) = some (us, '+' :: r) := by
  unfold parseFrac
  rw [digitRun_print6 us hus r]
  simp only [usFromDigits, List.take, List.foldl, List.length_cons, List.length_nil]
  norm_num
  omega

theorem pstr_offset_cons : pstr ("+00:00") = '+' :: pstr ("00:00") := rfl

theorem parseOffsetEnd_zero : parseOffsetEnd (pstr ("+00:00")) = some (some 0) := rfl

theorem parseTimePart_print (hh mi se us : Nat) (h1 : hh ≤ 99) (h2 : mi ≤ 99)
    (h3 : se ≤ 99) (h4 : us ≤ 999999) :
    parseTimePart (print2 hh ++ ':' ::
        (print2 mi ++ ':' ::
          (print2 se ++ ((if us = 0 then [] else '.' :: print6 us) ++ pstr ("+00:00"))))) =
      some (hh, mi, se, us, pstr ("+00:00")) := by
  unfold parseTimePart
  rw [parse2_print2 hh h1]
  simp only
  rw [parse2_print2 mi h2]
  simp only
  rw [parse2_print2 se h3]
  simp only
  by_cases h0 : us = 0
  · subst h0
    rw [if_pos rfl]
    rw [List.nil_append, pstr_offset_cons]
    rfl
  · rw [if_neg h0, List.cons_append]
    simp only
    rw [pstr_offset_cons, parseFrac_print6 us h4]

/-- Everything `isoformatUTC` prints before the `+00:00` offset suffix. -/
def isoBodyUTC (dt : PyDateTime) : List Char :=
  print4 dt.year ++ pstr ("-") ++ print2 dt.month ++ pstr ("-") ++ print2 dt.day ++
  pstr ("T") ++ print2 dt.hour ++ pstr (":") ++ print2 dt.minute ++ pstr (":") ++
  print2 dt.second ++
  (if dt.microsecond = 0 then [] else pstr (".") ++ print6 dt.microsecond)

theorem isoformatUTC_decomp (dt : PyDateTime) :
    isoformatUTC dt = isoBodyUTC dt ++ pstr ("+00:00") := by
  simp [isoformatUTC, isoBodyUTC, List.append_assoc]

theorem daysInMonth_le (y m : Nat) : daysInMonth y m ≤ 31 := by
  unfold daysInMonth
  split_ifs <;> omega

theorem assumeUTC_some (dt : PyDateTime) (o : Int) (h : dt.tzoffset = some o) :
    assumeUTC dt = dt := by
  obtain ⟨y, mo, dd, hh, mi, se, us, tz⟩ := dt
  simp only at h
  subst h
  rfl

theorem fromisoformat_isoformatUTC (dt : PyDateTime) (hv : validDT dt = true)
    (h0 : dt.tzoffset = some 0) :
    fromisoformat (isoformatUTC dt) = some dt := by
  obtain ⟨hy1, hy2, hm1, hm2, hd1, hd2, hhr, hmin, hsec, hus⟩ := validDT_fields dt hv
  obtain ⟨y, mo, dd, hh, mi, se, us, tz⟩ := dt
  simp only at h0 hy1 hy2 hm1 hm2 hd1 hd2 hhr hmin hsec hus
  subst h0
  have hshape : isoformatUTC ⟨y, mo, dd, hh, mi, se, us, some 0⟩ =
      print4 y ++ '-' :: (print2 mo ++ '-' :: (print2 dd ++ 'T' ::
        (print2 hh ++ ':' :: (print2 mi ++ ':' ::
          (print2 se ++ ((if us = 0 then [] else '.' :: print6 us) ++ pstr ("+00:00"))))))) := by
    by_cases h0 : us = 0 <;>
      simp [isoformatUTC, h0, List.append_assoc, pstr]
  rw [hshape]
  unfold fromisoformat
  rw [parse4_print4 y hy2]
  simp only
  rw [show expectCh '-' ('-' :: (print2 mo ++ '-' :: (print2 dd ++ 'T' ::
        (print2 hh ++ ':' :: (print2 mi ++ ':' ::
          (print2 se ++ ((if us = 0 then [] else '.' :: print6 us) ++ pstr ("+00:00")))))))) =
      some (print2 mo ++ '-' :: (print2 dd ++ 'T' ::
        (print2 hh ++ ':' :: (print2 mi ++ ':' ::
          (print2 se ++ ((if us = 0 then [] else '.' :: print6 us) ++ pstr ("+00:00"))))))) from rfl]
  simp only
  rw [parse2_print2 mo (by omega)]
  simp only
  rw [show expectCh '-' ('-' :: (print2 dd ++ 'T' ::
        (print2 hh ++ ':' :: (print2 mi ++ ':' ::
          (print2 se ++ ((if us = 0 then [] else '.' :: print6 us) ++ pstr ("+00:00"))))))) =
      some (print2 dd ++ 'T' ::
        (print2 hh ++ ':' :: (print2 mi ++ ':' ::
          (print2 se ++ ((if us = 0 then [] else '.' :: print6 us) ++ pstr ("+00:00")))))) from rfl]
  simp only
  rw [parse2_print2 dd (by have := daysInMonth_le y mo; omega)]
  simp only
  rw [parseTimePart_print hh mi se us (by omega) (by omega) (by omega) (by omega)]
  simp only
  rw [parseOffsetEnd_zero]
  simp only
  rw [if_pos hv]

theorem mem_print2_isDig (c : Char) (n : Nat) (h : n ≤ 99) (hc : c ∈ print2 n) :
    isDig c = true := by
  simp only [print2, List.mem_cons, List.not_mem_nil, or_false] at hc
  rcases hc with rfl | rfl
  · exact isDig_dchar _ (by omega)
  · exact isDig_dchar _ (by omega)

theorem mem_print4_isDig (c : Char) (n : Nat) (h : n ≤ 9999) (hc : c ∈ print4 n) :
    isDig c = true := by
  simp only [print4, List.mem_cons, List.not_mem_nil, or_false] at hc
  rcases hc with rfl | rfl | rfl | rfl <;> exact isDig_dchar _ (by omega)

theorem mem_print6_isDig (c : Char) (n : Nat) (h : n ≤ 999999) (hc : c ∈ print6 n) :
    isDig c = true := by
  simp only [print6, List.mem_cons, List.not_mem_nil, or_false] at hc
  rcases hc with rfl | rfl | rfl | rfl | rfl | rfl <;> exact isDig_dchar _ (by omega)

theorem isDig_ne_plus_Z (c : Char) (h : isDig c = true) : c ≠ '+' ∧ c ≠ 'Z' :=
  ⟨fun he => absurd (he ▸ h) (by decide), fun he => absurd (he ▸ h) (by decide)⟩

theorem isoBodyUTC_chars (dt : PyDateTime) (hv : validDT dt = true) :
    ∀ c ∈ isoBodyUTC dt, c ≠ '+' ∧ c ≠ 'Z' := by
  obtain ⟨hy1, hy2, hm1, hm2, hd1, hd2, hhr, hmin, hsec, hus⟩ := validDT_fields dt hv
  have hdd := daysInMonth_le dt.year dt.month
  intro c hc
  simp only [isoBodyUTC, List.append_assoc, List.mem_append] at hc
  rcases hc with hc | hc | hc | hc | hc | hc | hc | hc | hc | hc | hc | hc
  · exact isDig_ne_plus_Z c (mem_print4_isDig c _ hy2 hc)
  · simp only [pstr, List.mem_cons] at hc
    rcases hc with rfl | hc
    · exact ⟨by decide, by decide⟩
    · simp at hc
  · exact isDig_ne_plus_Z c (mem_print2_isDig c _ (by omega) hc)
  · simp only [pstr, List.mem_cons] at hc
    rcases hc with rfl | hc
    · exact ⟨by decide, by decide⟩
    · simp at hc
  · exact isDig_ne_plus_Z c (mem_print2_isDig c _ (by omega) hc)
  · simp only [pstr, List.mem_cons] at hc
    rcases hc with rfl | hc
    · exact ⟨by decide, by decide⟩
    · simp at hc
  · exact isDig_ne_plus_Z c (mem_print2_isDig c _ (by omega) hc)
  · simp only [pstr, List.mem_cons] at hc
    rcases hc with rfl | hc
    · exact ⟨by decide, by decide⟩
    · simp at hc
  · exact isDig_ne_plus_Z c (mem_print2_isDig c _ (by omega) hc)
  · simp only [pstr, List.mem_cons] at hc
    rcases hc with rfl | hc
    · exact ⟨by decide, by decide⟩
    · simp at hc
  · exact isDig_ne_plus_Z c (mem_print2_isDig c _ (by omega) hc)
  · by_cases h0 : dt.microsecond = 0
    · rw [if_pos h0] at hc
      simp at hc
    · rw [if_neg h0] at hc
      simp only [pstr, List.append_assoc, List.mem_append, List.mem_cons] at hc
      rcases hc with (rfl | hc) | hc
      · exact ⟨by decide, by decide⟩
      · simp at hc
      · exact isDig_ne_plus_Z c (mem_print6_isDig c _ hus hc)

/-- C9: round-trip of the serialization used by the view and time
endpoints.  For every timezone-aware UTC datetime, the Z-suffixed
ISO-8601 serialization (isoformat with `+00:00` replaced by `Z`) is the
printed body followed by `Z`, and feeding that string back through
`parse_iso_utc` returns the very same datetime. -/
theorem C9_serialize_roundtrip (dt : PyDateTime) (hv : validDT dt = true)
    (h0 : dt.tzoffset = some 0) :
    serializeZ dt = some (isoBodyUTC dt ++ pstr ("Z")) ∧
    parse_iso_utc (isoBodyUTC dt ++ pstr ("Z")) = .ok dt := by
  have hchars := isoBodyUTC_chars dt hv
  have hplus : '+' ∉ isoBodyUTC dt := fun hm => (hchars _ hm).1 rfl
  have hzed : 'Z' ∉ isoBodyUTC dt := fun hm => (hchars _ hm).2 rfl
  constructor
  · unfold serializeZ
    rw [astimezoneUTC_id0 dt hv h0]
    simp only [Option.map]
    rw [isoformatUTC_decomp, pstr_offset_cons,
      pyReplace_append_pat '+' (pstr ("00:00")) (pstr ("Z")) _ hplus]
  · unfold parse_iso_utc
    rw [zPre_append_Z _ hzed, ← isoformatUTC_decomp,
      fromisoformat_isoformatUTC dt hv h0]
    simp only
    rw [assumeUTC_some dt 0 h0, astimezoneUTC_id0 dt hv h0]

/-- C9 witness: the round trip at a concrete UTC datetime with a nonzero
microsecond field. -/
theorem C9_witness :
    validDT ⟨2025, 9, 22, 15, 30, 7, 123456, some 0⟩ = true ∧
    ((⟨2025, 9, 22, 15, 30, 7, 123456, some 0⟩ : PyDateTime).tzoffset = some 0) ∧
    (serializeZ ⟨2025, 9, 22, 15, 30, 7, 123456, some 0⟩ =
        some (isoBodyUTC ⟨2025, 9, 22, 15, 30, 7, 123456, some 0⟩ ++ pstr ("Z")) ∧
      parse_iso_utc (isoBodyUTC ⟨2025, 9, 22, 15, 30, 7, 123456, some 0⟩ ++ pstr ("Z")) =
        .ok ⟨2025, 9, 22, 15, 30, 7, 123456, some 0⟩) :=
  ⟨by decide, rfl,
    C9_serialize_roundtrip ⟨2025, 9, 22, 15, 30, 7, 123456, some 0⟩ (by decide) rfl⟩
